import Mathlib

/-!
Shallow embedding of the Go package `validator` (maypok86/validator,
src/validator.go) and proofs about its specification.

Modelling conventions:
- Go `reflect.Value` becomes the inductive `Value`; Go kinds collapse to the
  cases the code distinguishes (String, Int, Slice/Array merged into one
  sequence kind since every switch treats them identically, Struct, Ptr,
  everything else as `other`).
- Go `error` results of the rule functions become `Option Err` where `none`
  models a nil error (success).
- A Go panic (the out-of-range index in `parseValidateTag`) is modelled by an
  outer `Option`: `none` means the call panics.  All callers propagate the
  panic, exactly as a Go panic unwinds through them.
- `strconv.ParseInt(s, 0, 64)` and `strconv.Atoi` are modelled by `goParseInt`
  and `goAtoi` (sign, base prefixes 0x/0o/0b, leading-zero octal, 64-bit
  bounds; digit-group underscores are not modelled, no claim touches them).
- `strings.TrimSpace` is modelled by `trimSpace` (ASCII whitespace; no claim
  involves exotic Unicode spaces), and `strings.Split` / `strings.SplitN`
  by `splitChar` / `splitN2`, all written as structural recursion over the
  character list so that concrete instances evaluate inside the kernel.
-/

/-- Go kinds, as far as the code distinguishes them.  `seq` stands for both
`reflect.Slice` and `reflect.Array` (every switch in the source handles the
two identically); `strct` is `reflect.Struct`; `other` covers every remaining
kind (Bool, Float64, Invalid, ...). -/
inductive Kind where
  | string
  | int
  | seq
  | strct
  | ptr
  | other
deriving DecidableEq, Repr

/-- The metadata of one struct field that `validateField` reads from
`reflect.StructField`: the `validate` tag value, the `Anonymous` flag and the
`PkgPath` (empty iff the field is exported). -/
structure StructField where
  tag : String
  anonymous : Bool
  pkgPath : String
deriving DecidableEq, Repr

/-- A runtime Go value as `reflect` presents it to the validator.  A struct
carries its fields in declaration order, each as definition-metadata paired
with the field value; a pointer is either nil (`none`) or points to a value;
a slice or array records the static element kind (available even when empty,
as `value.Type().Elem().Kind()` is) together with its elements. -/
inductive Value where
  | str (s : String)
  | int (i : Int)
  | seq (elemKind : Kind) (elems : List Value)
  | strct (fields : List (StructField × Value))
  | ptr (pointee : Option Value)
  | other
deriving Repr

/-- The errors the package produces: the three sentinel values declared at the
top of validator.go, plus `msg s` for an `errors.New(s)` created inside a rule
function.  `invalidValidatorStx` models the sentinel `ErrInvalidValidatorSyntax`
and `validateForUnexported` models `ErrValidateForUnexportedFields`, with the
Go identifiers abbreviated. -/
inductive Err where
  | notStruct
  | invalidValidatorStx
  | validateForUnexported
  | msg (s : String)
deriving DecidableEq, Repr

/-- `ValidationError` wraps one underlying error. -/
structure ValidationError where
  err : Err
deriving DecidableEq, Repr

/-- `ValidationErrors` is the ordered aggregate of violations. -/
abbrev ValidationErrors := List ValidationError

/-- The `Is` method of `ValidationErrors`: true iff some contained error
matches the target.  (For the sentinel errors Go `errors.Is` is equality;
two distinct `errors.New` results are never `Is`-related to a sentinel, which
the `msg` constructor reflects.) -/
def ValidationErrors.Is (v : ValidationErrors) (target : Err) : Bool :=
  v.any (fun verr => verr.err == target)

/-- The tag-name constants of validator.go. -/
def lenTag : String := "len"

/-- Rule-name constant for the membership rule. -/
def inTag : String := "in"

/-- Rule-name constant for the minimum rule. -/
def minTag : String := "min"

/-- Rule-name constant for the maximum rule. -/
def maxTag : String := "max"

/-- Model of `strings.TrimSpace`: drop leading and trailing whitespace. -/
def trimSpace (s : String) : String :=
  ⟨((s.data.dropWhile Char.isWhitespace).reverse.dropWhile Char.isWhitespace).reverse⟩

/-- Helper for `splitChar`: accumulate the current piece (reversed) while
scanning. -/
def splitCharAux (sep : Char) : List Char → List Char → List (List Char)
  | [], acc => [acc.reverse]
  | c :: cs, acc =>
    if c = sep then acc.reverse :: splitCharAux sep cs []
    else splitCharAux sep cs (c :: acc)

/-- Model of `strings.Split(s, sep)` for a one-character separator: all the
pieces between occurrences of the separator (the empty string yields one
empty piece, as in Go). -/
def splitChar (sep : Char) (s : String) : List String :=
  (splitCharAux sep s.data []).map (fun l => ⟨l⟩)

/-- The value of one digit character, as Go `strconv` computes it (letters
count from 10 regardless of case; anything else is not a digit). -/
def digitVal (c : Char) : Option Nat :=
  if '0' ≤ c ∧ c ≤ '9' then some (c.toNat - '0'.toNat)
  else if 'a' ≤ c ∧ c ≤ 'z' then some (c.toNat - 'a'.toNat + 10)
  else if 'A' ≤ c ∧ c ≤ 'Z' then some (c.toNat - 'A'.toNat + 10)
  else none

/-- Accumulate a digit string in the given base; `none` on the first character
that is not a digit below the base, mirroring the digit loop of
`strconv.ParseUint`.  An empty list yields 0, which only arises after the
source has stripped a leading `0` (Go parses `"0"` to 0 this way). -/
def parseDigitsBase (base : Nat) (cs : List Char) : Option Nat :=
  cs.foldl
    (fun acc c =>
      acc.bind (fun n =>
        (digitVal c).bind (fun d => if d < base then some (n * base + d) else none)))
    (some 0)

/-- Model of `strconv.ParseInt(s, 0, 64)`: optional sign, base detection from
the prefix (`0x`/`0X` hex, `0o`/`0O` octal, `0b`/`0B` binary when at least one
digit follows, a bare leading `0` meaning octal, otherwise decimal), then the
64-bit signed range check.  Any failure (empty input, bad digit, overflow) is
`none`, matching a non-nil Go error. -/
def goParseInt (s : String) : Option Int :=
  match s.data with
  | [] => none
  | c0 :: rest =>
    let signed : Bool × List Char :=
      if c0 = '+' then (false, rest)
      else if c0 = '-' then (true, rest)
      else (false, c0 :: rest)
    match signed with
    | (neg, ds) =>
      match ds with
      | [] => none
      | d0 :: drest =>
        let based : Nat × List Char :=
          if d0 = '0' then
            match drest with
            | d1 :: d2 :: drest2 =>
              if d1 = 'x' ∨ d1 = 'X' then (16, d2 :: drest2)
              else if d1 = 'o' ∨ d1 = 'O' then (8, d2 :: drest2)
              else if d1 = 'b' ∨ d1 = 'B' then (2, d2 :: drest2)
              else (8, drest)
            | _ => (8, drest)
          else (10, d0 :: drest)
        match based with
        | (base, digits) =>
          match parseDigitsBase base digits with
          | none => none
          | some n =>
            if neg then (if n ≤ 2 ^ 63 then some (-(n : Int)) else none)
            else (if n ≤ 2 ^ 63 - 1 then some (n : Int) else none)

/-- Model of `strconv.Atoi`: optional sign, decimal digits only, 64-bit
signed range (the source runs on a 64-bit platform per its CI matrix). -/
def goAtoi (s : String) : Option Int :=
  match s.data with
  | [] => none
  | c0 :: rest =>
    let signed : Bool × List Char :=
      if c0 = '+' then (false, rest)
      else if c0 = '-' then (true, rest)
      else (false, c0 :: rest)
    match signed with
    | (neg, ds) =>
      match ds with
      | [] => none
      | _ =>
        match parseDigitsBase 10 ds with
        | none => none
        | some n =>
          if neg then (if n ≤ 2 ^ 63 then some (-(n : Int)) else none)
          else (if n ≤ 2 ^ 63 - 1 then some (n : Int) else none)

/-- `getLenValidationFunc`: the closure returned for `len:<n>`.  Text length
is the Unicode codepoint count (`utf8.RuneCountInString`), which
`String.length` is in Lean. -/
def getLenValidationFunc (length : Int) : Value → Option Err :=
  fun value =>
    match value with
    | .str s =>
      if (s.length : Int) ≠ length then some (.msg "invalid length") else none
    | .seq _ elems =>
      if (elems.length : Int) ≠ length then some (.msg "invalid length") else none
    | _ => some (.msg "invalid type of field for tag len")

/-- `getInValidationFunc`: the closure returned for `in:<list>`.  For a string
value each entry is trimmed and compared; for an int value every entry is
first parsed with `strconv.ParseInt(·, 0, 64)` — the first parse failure
yields the `ErrInvalidValidatorSyntax` sentinel (note: this happens here, at
validation time, not at construction) — then membership is checked. -/
def getInValidationFunc (strs : List String) : Value → Option Err :=
  fun value =>
    match value with
    | .str s =>
      if strs.any (fun str => s == trimSpace str) then none
      else some (.msg "field value is not in array from tag")
    | .int i =>
      match strs.mapM (fun str => goParseInt (trimSpace str)) with
      | none => some .invalidValidatorStx
      | some ins =>
        if ins.any (fun v => v == i) then none
        else some (.msg "field value is not in array from tag")
    | _ => some (.msg "invalid type of field for tag in")

/-- `getMinValidationFunc`: the closure returned for `min:<n>`. -/
def getMinValidationFunc (min : Int) : Value → Option Err :=
  fun value =>
    match value with
    | .str s =>
      if (s.length : Int) < min then some (.msg "string length less than min") else none
    | .seq _ elems =>
      if (elems.length : Int) < min then some (.msg "slice length less than min") else none
    | .int i =>
      if i < min then some (.msg "int value less than min") else none
    | _ => some (.msg "invalid type of field for tag min")

/-- `getMaxValidationFunc`: the closure returned for `max:<n>`. -/
def getMaxValidationFunc (max : Int) : Value → Option Err :=
  fun value =>
    match value with
    | .str s =>
      if (s.length : Int) > max then some (.msg "string length greater than max") else none
    | .seq _ elems =>
      if (elems.length : Int) > max then some (.msg "slice length greater than max") else none
    | .int i =>
      if i > max then some (.msg "int value greater than max") else none
    | _ => some (.msg "invalid type of field for tag max")

/-- `getValidationFunc`: trims both parts of the annotation, rejects an empty
parameter, dispatches on the rule name, parses the numeric parameter for
`len`/`min`/`max`, splits the comma list for `in`, and returns the rule
closure or `ErrInvalidValidatorSyntax`. -/
def getValidationFunc (funcName : String) (param : String) :
    Except Err (Value → Option Err) :=
  let funcName := trimSpace funcName
  let param := trimSpace param
  if param = "" then .error .invalidValidatorStx
  else if funcName = lenTag then
    match goAtoi param with
    | none => .error .invalidValidatorStx
    | some length => .ok (getLenValidationFunc length)
  else if funcName = inTag then
    .ok (getInValidationFunc (splitChar ',' param))
  else if funcName = minTag then
    match goParseInt param with
    | none => .error .invalidValidatorStx
    | some min => .ok (getMinValidationFunc min)
  else if funcName = maxTag then
    match goParseInt param with
    | none => .error .invalidValidatorStx
    | some max => .ok (getMaxValidationFunc max)
  else .error .invalidValidatorStx

/-- Helper for `splitN2`: scan for the first colon, accumulating the prefix
(reversed). -/
def splitN2Aux : List Char → List Char → List String
  | [], acc => [⟨acc.reverse⟩]
  | c :: cs, acc =>
    if c = ':' then [⟨acc.reverse⟩, ⟨cs⟩] else splitN2Aux cs (c :: acc)

/-- Model of `strings.SplitN(s, ":", 2)`: the part before the first colon,
then the untouched remainder; a string with no colon yields a one-element
list. -/
def splitN2 (s : String) : List String :=
  splitN2Aux s.data []

/-- `parseValidateTag`: splits the annotation and hands `s[0]`, `s[1]` to
`getValidationFunc`.  The source indexes `s[1]` without checking that the
split produced two parts, so when the annotation has no colon the access is
out of range and the call panics: modelled by the outer `none`. -/
def parseValidateTag (validateTag : String) :
    Option (Except Err (Value → Option Err)) :=
  let s := splitN2 validateTag
  match s with
  | s0 :: s1 :: _ => some (getValidationFunc s0 s1)
  | _ => none

/-- The pointer-unwrapping loop of `validateField`: follow non-nil pointer
links, stopping at the first nil pointer (which is left as the nil pointer
value itself) or at a non-pointer. -/
def derefAll : Value → Value
  | .ptr (some v) => derefAll v
  | v => v

/-- `validateField`: skip an empty or `-` tag; flag a non-anonymous field with
a non-empty `PkgPath` (an unexported, non-embedded field) with the
`ErrValidateForUnexportedFields` sentinel; otherwise parse the tag (a parse
error is recorded for the field; a panic propagates), dereference the field
value and apply the rule, recording its error if any. -/
def validateField (fieldDefinition : StructField) (fieldValue : Value)
    (errs : ValidationErrors) : Option ValidationErrors :=
  let tag := fieldDefinition.tag
  if tag = "" ∨ tag = "-" then some errs
  else if !fieldDefinition.anonymous && fieldDefinition.pkgPath ≠ "" then
    some (errs ++ [⟨.validateForUnexported⟩])
  else
    match parseValidateTag tag with
    | none => none
    | some (.error e) => some (errs ++ [⟨e⟩])
    | some (.ok vfunc) =>
      match vfunc (derefAll fieldValue) with
      | some e => some (errs ++ [⟨e⟩])
      | none => some errs

/-- The field loop of `validateStruct`: fold `validateField` over the fields
in declaration order, threading the accumulator; a panic in any field aborts
the whole walk (as a Go panic would). -/
def validateFields : List (StructField × Value) → ValidationErrors →
    Option ValidationErrors
  | [], errs => some errs
  | (fd, fv) :: rest, errs =>
    match validateField fd fv errs with
    | none => none
    | some errs2 => validateFields rest errs2

/-- `validateStruct`: unwrap a non-nil pointer, reject a non-struct with
`ErrNotStruct`, otherwise run the field loop. -/
def validateStruct : Value → ValidationErrors → Option ValidationErrors
  | .ptr (some v), errs => validateStruct v errs
  | .strct fields, errs => validateFields fields errs
  | _, errs => some (errs ++ [⟨Err.notStruct⟩])

mutual

/-- `deepValidate`: nil pointer is a no-op; a non-nil pointer recurses on the
pointee; a struct goes to `validateStruct`; a slice or array whose element
kind is struct, pointer, slice or array recurses element by element; anything
else appends `ErrNotStruct`. -/
def deepValidate : Value → ValidationErrors → Option ValidationErrors
  | .ptr none, errs => some errs
  | .ptr (some v), errs => deepValidate v errs
  | .strct fields, errs => validateStruct (.strct fields) errs
  | .seq elemKind elems, errs =>
    if elemKind = Kind.strct ∨ elemKind = Kind.ptr ∨ elemKind = Kind.seq then
      deepValidateList elems errs
    else some (errs ++ [⟨Err.notStruct⟩])
  | _, errs => some (errs ++ [⟨Err.notStruct⟩])

/-- The element loop of `deepValidate` over a slice or array, in index
order. -/
def deepValidateList : List Value → ValidationErrors → Option ValidationErrors
  | [], errs => some errs
  | v :: vs, errs =>
    match deepValidate v errs with
    | none => none
    | some errs2 => deepValidateList vs errs2

end

/-- `Validate`, the entry point: run `deepValidate` with an empty aggregate
and return the aggregate when non-empty, nil (`none`) when empty.  The outer
`Option` is the panic channel: `none` means the call panicked. -/
def Validate (v : Value) : Option (Option ValidationErrors) :=
  match deepValidate v [] with
  | none => none
  | some errs => some (if errs.length > 0 then some errs else none)

/-! ## Helper notions used only to state the claims -/

/-- The kind of a value, as `reflect.Value.Kind()` reports it in this
model. -/
def Value.kind : Value → Kind
  | .str _ => Kind.string
  | .int _ => Kind.int
  | .seq _ _ => Kind.seq
  | .strct _ => Kind.strct
  | .ptr _ => Kind.ptr
  | .other => Kind.other

/-- A value whose kind `deepValidate` recurses into instead of flagging
`ErrNotStruct`: a struct, a pointer, or a slice/array whose element kind is
struct, pointer, slice or array. -/
def isRecursableRoot : Value → Bool
  | .strct _ => true
  | .ptr _ => true
  | .seq elemKind _ =>
    decide (elemKind = Kind.strct ∨ elemKind = Kind.ptr ∨ elemKind = Kind.seq)
  | _ => false

/-- Whether a rule construction succeeded. -/
def exceptIsOk : Except Err (Value → Option Err) → Bool
  | .ok _ => true
  | .error _ => false

/-! ## Supporting lemmas -/

/-- Splitting a colon-free character list on the first colon produces a
one-element list whatever has been accumulated. -/
lemma splitN2Aux_no_colon (cs : List Char) : ∀ acc, ':' ∉ cs →
    ∃ x, splitN2Aux cs acc = [x] := by
  induction cs with
  | nil => intro acc _; exact ⟨_, rfl⟩
  | cons c cs ih =>
    intro acc h
    have hc : ¬ c = ':' := by
      intro e
      exact h (by simp [e])
    rw [splitN2Aux, if_neg hc]
    exact ih _ (fun hm => h (List.mem_cons_of_mem _ hm))

/-! ## Claims -/

/-- C1: the claim says that for every annotation with no colon separator
(and neither empty nor a dash) parsing surfaces `ErrInvalidValidatorSyntax`
and never indexes out of bounds.  The source instead indexes `s[1]` of a
one-element split result, which panics; in the model the whole call chain
returns the panic marker `none` instead of recording a syntax error. -/
theorem annotation_without_colon_panics (tag : String) (fv : Value)
    (errs : ValidationErrors)
    (h1 : ':' ∉ tag.data) (h2 : tag ≠ "") (h3 : tag ≠ "-") :
    parseValidateTag tag = none ∧ validateField ⟨tag, false, ""⟩ fv errs = none := by
  obtain ⟨x, hx⟩ := splitN2Aux_no_colon tag.data [] h1
  have hparse : parseValidateTag tag = none := by
    unfold parseValidateTag splitN2
    rw [hx]
  refine ⟨hparse, ?_⟩
  unfold validateField
  simp only [hparse]
  have hskip : ¬((⟨tag, false, ""⟩ : StructField).tag = "" ∨
      (⟨tag, false, ""⟩ : StructField).tag = "-") := by
    simp [h2, h3]
  rw [if_neg hskip]
  simp

/-- Witness for C1 at the concrete annotation "len" on an exported string
field. -/
theorem annotation_without_colon_panics_witness :
    (':' ∉ "len".data ∧ "len" ≠ "" ∧ "len" ≠ "-") ∧
    (parseValidateTag "len" = none ∧
      validateField ⟨"len", false, ""⟩ (.str "hello") [] = none) :=
  ⟨⟨by decide, by decide, by decide⟩,
    annotation_without_colon_panics "len" (.str "hello") [] (by decide)
      (by decide) (by decide)⟩

/-- C2: a root value that is not a struct, not a pointer, and not a
slice/array of struct/pointer/slice elements makes `Validate` return the
one-element aggregate holding exactly `ErrNotStruct`, which the `Is`
predicate recognises — never a silent success. -/
theorem validate_nonrecursable_single_error (v : Value)
    (h : isRecursableRoot v = false) :
    Validate v = some (some [⟨Err.notStruct⟩]) ∧
    ValidationErrors.Is [⟨Err.notStruct⟩] Err.notStruct = true := by
  refine ⟨?_, by decide⟩
  cases v with
  | str s => rfl
  | int i => rfl
  | other => rfl
  | strct fields => simp [isRecursableRoot] at h
  | ptr p => simp [isRecursableRoot] at h
  | seq elemKind elems =>
    have hcond : ¬(elemKind = Kind.strct ∨ elemKind = Kind.ptr ∨
        elemKind = Kind.seq) := by
      simpa [isRecursableRoot] using h
    simp [Validate, deepValidate, hcond]

/-- Witness for C2 at a plain integer root and a slice-of-int root. -/
theorem validate_nonrecursable_single_error_witness :
    (isRecursableRoot (.int 3) = false ∧
      Validate (.int 3) = some (some [⟨Err.notStruct⟩])) ∧
    (isRecursableRoot (.seq Kind.int [.int 1, .int 2]) = false ∧
      Validate (.seq Kind.int [.int 1, .int 2]) = some (some [⟨Err.notStruct⟩])) :=
  ⟨⟨rfl, (validate_nonrecursable_single_error (.int 3) rfl).1⟩,
    ⟨rfl, (validate_nonrecursable_single_error (.seq Kind.int [.int 1, .int 2])
      rfl).1⟩⟩

/-- C3: the two nil-pointer paths differ.  A nil pointer as the traversal
root is a silent success, while a nil pointer that is an annotated field's
value survives the dereference loop unchanged and is handed to the rule
as-is, where each of the four built-in rules rejects it with its
invalid-field-type error; through `validateField` the error lands in the
aggregate. -/
theorem nil_pointer_two_paths :
    Validate (.ptr none) = some none ∧
    derefAll (.ptr none) = .ptr none ∧
    (∀ length : Int, getLenValidationFunc length (.ptr none) =
      some (.msg "invalid type of field for tag len")) ∧
    (∀ strs : List String, getInValidationFunc strs (.ptr none) =
      some (.msg "invalid type of field for tag in")) ∧
    (∀ min : Int, getMinValidationFunc min (.ptr none) =
      some (.msg "invalid type of field for tag min")) ∧
    (∀ max : Int, getMaxValidationFunc max (.ptr none) =
      some (.msg "invalid type of field for tag max")) ∧
    validateField ⟨"len:5", false, ""⟩ (.ptr none) [] =
      some [⟨.msg "invalid type of field for tag len"⟩] :=
  ⟨rfl, rfl, fun _ => rfl, fun _ => rfl, fun _ => rfl, fun _ => rfl, rfl⟩

/-- C10: an empty slice or array whose element kind is struct, pointer or
slice/array validates successfully: the element loop runs zero times and the
empty aggregate makes `Validate` return nil. -/
theorem empty_qualifying_sequence_valid (elemKind : Kind)
    (h : elemKind = Kind.strct ∨ elemKind = Kind.ptr ∨ elemKind = Kind.seq) :
    Validate (.seq elemKind []) = some none := by
  simp [Validate, deepValidate, h, deepValidateList]

/-- Witness for C10 at a nil slice of pointers (a nil slice has length
zero). -/
theorem empty_qualifying_sequence_valid_witness :
    (Kind.ptr = Kind.strct ∨ Kind.ptr = Kind.ptr ∨ Kind.ptr = Kind.seq) ∧
    Validate (.seq Kind.ptr []) = some none :=
  ⟨by decide, empty_qualifying_sequence_valid Kind.ptr (by decide)⟩

/-- C4: the len rule succeeds on text iff the codepoint count equals the
parameter exactly, succeeds on a slice/array iff the element count equals it
exactly, and rejects every other kind with the invalid-field-type error. -/
theorem len_rule_correct :
    (∀ (length : Int) (s : String),
      getLenValidationFunc length (.str s) = none ↔ (s.length : Int) = length) ∧
    (∀ (length : Int) (elemKind : Kind) (elems : List Value),
      getLenValidationFunc length (.seq elemKind elems) = none ↔
        (elems.length : Int) = length) ∧
    (∀ (length : Int) (v : Value),
      v.kind ≠ Kind.string → v.kind ≠ Kind.seq →
        getLenValidationFunc length v =
          some (.msg "invalid type of field for tag len")) := by
  refine ⟨?_, ?_, ?_⟩
  · intro length s
    by_cases h : (s.length : Int) = length <;> simp [getLenValidationFunc, h]
  · intro length elemKind elems
    by_cases h : (elems.length : Int) = length <;> simp [getLenValidationFunc, h]
  · intro length v h1 h2
    cases v <;> first
      | rfl
      | exact absurd rfl h1
      | exact absurd rfl h2

/-- Witness for C4: "hello" passes len 5 (and a 5-codepoint string with a
larger byte length passes too), "hell" fails, and an integer field is a type
error. -/
theorem len_rule_correct_witness :
    getLenValidationFunc 5 (.str "hello") = none ∧
    getLenValidationFunc 5 (.str "héllo") = none ∧
    getLenValidationFunc 5 (.str "hell") ≠ none ∧
    getLenValidationFunc 5 (.int 7) = some (.msg "invalid type of field for tag len") :=
  ⟨(len_rule_correct.1 5 "hello").mpr (by decide),
    (len_rule_correct.1 5 "héllo").mpr (by decide),
    fun h => absurd ((len_rule_correct.1 5 "hell").mp h) (by decide),
    len_rule_correct.2.2 5 (.int 7) (by decide) (by decide)⟩

/-- C5: the min rule fails exactly when the measure (text codepoint count,
element count, or integer value) is strictly below the parameter, the max
rule exactly when it is strictly above, both succeed at equality, and any
other kind is an invalid-field-type error. -/
theorem min_max_rules_correct :
    (∀ (min : Int) (s : String),
      getMinValidationFunc min (.str s) = none ↔ ¬((s.length : Int) < min)) ∧
    (∀ (min : Int) (elemKind : Kind) (elems : List Value),
      getMinValidationFunc min (.seq elemKind elems) = none ↔
        ¬((elems.length : Int) < min)) ∧
    (∀ (min i : Int),
      getMinValidationFunc min (.int i) = none ↔ ¬(i < min)) ∧
    (∀ (max : Int) (s : String),
      getMaxValidationFunc max (.str s) = none ↔ ¬((s.length : Int) > max)) ∧
    (∀ (max : Int) (elemKind : Kind) (elems : List Value),
      getMaxValidationFunc max (.seq elemKind elems) = none ↔
        ¬((elems.length : Int) > max)) ∧
    (∀ (max i : Int),
      getMaxValidationFunc max (.int i) = none ↔ ¬(i > max)) ∧
    (∀ n : Int, getMinValidationFunc n (.int n) = none ∧
      getMaxValidationFunc n (.int n) = none) ∧
    (∀ (n : Int) (v : Value),
      v.kind ≠ Kind.string → v.kind ≠ Kind.seq → v.kind ≠ Kind.int →
        getMinValidationFunc n v = some (.msg "invalid type of field for tag min") ∧
        getMaxValidationFunc n v = some (.msg "invalid type of field for tag max")) := by
  refine ⟨?_, ?_, ?_, ?_, ?_, ?_, ?_, ?_⟩
  · intro min s
    by_cases h : (s.length : Int) < min <;> simp [getMinValidationFunc, h]
  · intro min elemKind elems
    by_cases h : (elems.length : Int) < min <;> simp [getMinValidationFunc, h]
  · intro min i
    by_cases h : i < min <;> simp [getMinValidationFunc, h]
  · intro max s
    by_cases h : (s.length : Int) > max <;> simp [getMaxValidationFunc, h]
  · intro max elemKind elems
    by_cases h : (elems.length : Int) > max <;> simp [getMaxValidationFunc, h]
  · intro max i
    by_cases h : i > max <;> simp [getMaxValidationFunc, h]
  · intro n
    constructor <;> simp [getMinValidationFunc, getMaxValidationFunc]
  · intro n v h1 h2 h3
    refine ⟨?_, ?_⟩ <;> cases v <;> first
      | rfl
      | exact absurd rfl h1
      | exact absurd rfl h2
      | exact absurd rfl h3

/-- Witness for C5: a three-element sequence passes min 2 and max 4, a
one-element sequence fails min 2, a five-element one fails max 4, an integer
equal to the bound passes both, and a non-text non-sequence non-integer kind
is a type error. -/
theorem min_max_rules_correct_witness :
    getMinValidationFunc 2 (.seq Kind.int [.int 1, .int 2, .int 3]) = none ∧
    getMaxValidationFunc 4 (.seq Kind.int [.int 1, .int 2, .int 3]) = none ∧
    getMinValidationFunc 2 (.seq Kind.int [.int 1]) ≠ none ∧
    getMaxValidationFunc 4 (.seq Kind.int [.int 1, .int 2, .int 3, .int 4, .int 5]) ≠ none ∧
    getMinValidationFunc 3 (.int 3) = none ∧
    getMaxValidationFunc 3 (.int 3) = none ∧
    getMinValidationFunc 1 Value.other = some (.msg "invalid type of field for tag min") :=
  ⟨(min_max_rules_correct.2.1 2 Kind.int [.int 1, .int 2, .int 3]).mpr (by decide),
    (min_max_rules_correct.2.2.2.2.1 4 Kind.int [.int 1, .int 2, .int 3]).mpr (by decide),
    fun h => ((min_max_rules_correct.2.1 2 Kind.int [.int 1]).mp h) (by decide),
    fun h =>
      ((min_max_rules_correct.2.2.2.2.1 4 Kind.int
        [.int 1, .int 2, .int 3, .int 4, .int 5]).mp h) (by decide),
    (min_max_rules_correct.2.2.2.2.2.2.1 3).1,
    (min_max_rules_correct.2.2.2.2.2.2.1 3).2,
    (min_max_rules_correct.2.2.2.2.2.2.2 1 Value.other (by decide) (by decide)
      (by decide)).1⟩

/-- C6 counterexample: with the list "1,2,x" — whose entry "x" does not parse
as an integer — the claim says rule construction fails with the syntax error;
in the source, construction of the in rule succeeds (it only splits the
list). -/
theorem in_rule_construction_succeeds_cex :
    goParseInt (trimSpace "x") = none ∧
    exceptIsOk (getValidationFunc inTag "1,2,x") = true :=
  ⟨by decide, rfl⟩

/-- C6 amended: construction of the in rule never fails for a non-blank
parameter; the entry parse check instead runs at validation time, on each
integer-kind value, and with an unparsable entry it yields
`ErrInvalidValidatorSyntax` whatever the integer value is (the value is never
compared). -/
theorem in_rule_unparsable_entry_validation_time :
    (∀ param : String, trimSpace param ≠ "" →
      exceptIsOk (getValidationFunc inTag param) = true) ∧
    getValidationFunc inTag "1,2,x" = .ok (getInValidationFunc ["1", "2", "x"]) ∧
    (∀ i : Int, getInValidationFunc ["1", "2", "x"] (.int i) =
      some Err.invalidValidatorStx) := by
  refine ⟨?_, rfl, fun i => rfl⟩
  intro param h
  unfold getValidationFunc
  rw [if_neg h, if_neg (show ¬(trimSpace inTag = lenTag) from by decide),
    if_pos (show trimSpace inTag = inTag from by decide)]
  rfl

/-- Witness for C6's amended statement at the parameter "1,2,x" and field
value 1 (which is in the list, yet the syntax error wins). -/
theorem in_rule_unparsable_entry_validation_time_witness :
    trimSpace "1,2,x" ≠ "" ∧
    exceptIsOk (getValidationFunc inTag "1,2,x") = true ∧
    getInValidationFunc ["1", "2", "x"] (.int 1) = some Err.invalidValidatorStx :=
  ⟨by decide,
    in_rule_unparsable_entry_validation_time.1 "1,2,x" (by decide),
    in_rule_unparsable_entry_validation_time.2.2 1⟩

/-- C7: an annotated field (non-empty, non-dash tag) that is neither exported
(`PkgPath` non-empty) nor anonymous gets exactly the unexported-field error,
and neither the tag content nor the field value is ever looked at: the result
is the same for every value, and even a tag that would panic if parsed is
harmless. -/
theorem unexported_annotated_field_error (fd : StructField) (fv fv2 : Value)
    (errs : ValidationErrors)
    (h1 : ¬(fd.tag = "" ∨ fd.tag = "-")) (h2 : fd.anonymous = false)
    (h3 : fd.pkgPath ≠ "") :
    validateField fd fv errs = some (errs ++ [⟨Err.validateForUnexported⟩]) ∧
    validateField fd fv errs = validateField fd fv2 errs := by
  have key : ∀ w : Value, validateField fd w errs =
      some (errs ++ [⟨Err.validateForUnexported⟩]) := by
    intro w
    unfold validateField
    rw [if_neg h1, if_pos (by simp [h2, h3])]
  exact ⟨key fv, (key fv).trans (key fv2).symm⟩

/-- Witness for C7: the unexported field has the dangerous tag "len" (which
panics when parsed) and a value violating every rule, yet the single
unexported-field error is produced — so the rule was neither parsed nor
evaluated. -/
theorem unexported_annotated_field_error_witness :
    (¬(("len" : String) = "" ∨ ("len" : String) = "-")) ∧
    validateField ⟨"len", false, "validator"⟩ (.int 999) [] =
      some [⟨Err.validateForUnexported⟩] :=
  ⟨by decide,
    (unexported_annotated_field_error ⟨"len", false, "validator"⟩ (.int 999)
      (.str "x") [] (by decide) rfl (by decide)).1⟩

/-- C8: a field whose tag is empty or a dash contributes nothing, whatever
its value, accessibility or embedding status: `validateField` returns the
aggregate unchanged before the accessibility check or any parsing. -/
theorem untagged_field_skipped (fd : StructField) (fv : Value)
    (errs : ValidationErrors) (h : fd.tag = "" ∨ fd.tag = "-") :
    validateField fd fv errs = some errs := by
  unfold validateField
  rw [if_pos h]

/-- Witness for C8: a dash-tagged, unexported field with a value that would
violate every rule contributes no error. -/
theorem untagged_field_skipped_witness :
    (("-" : String) = "" ∨ ("-" : String) = "-") ∧
    validateField ⟨"-", false, "validator"⟩ (.ptr none) [] = some [] :=
  ⟨by decide,
    untagged_field_skipped ⟨"-", false, "validator"⟩ (.ptr none) [] (by decide)⟩

/-- One field's run only appends: validating against an existing aggregate is
the same as validating against an empty one and prefixing the aggregate. -/
lemma validateField_append (fd : StructField) (fv : Value) (errs : ValidationErrors) :
    validateField fd fv errs = (validateField fd fv []).map (fun r => errs ++ r) := by
  unfold validateField
  by_cases h1 : fd.tag = "" ∨ fd.tag = "-"
  · rw [if_pos h1, if_pos h1]; simp
  · rw [if_neg h1, if_neg h1]
    by_cases h2 : (!fd.anonymous && decide (fd.pkgPath ≠ "")) = true
    · rw [if_pos h2, if_pos h2]; simp
    · rw [if_neg h2, if_neg h2]
      cases hp : parseValidateTag fd.tag with
      | none => simp [hp]
      | some r =>
        cases r with
        | error e => simp [hp]
        | ok vfunc =>
          cases hv : vfunc (derefAll fv) with
          | none => simp [hp, hv]
          | some e => simp [hp, hv]

/-- The field loop only appends, field by field in declaration order. -/
lemma validateFields_append (fs : List (StructField × Value)) :
    ∀ errs : ValidationErrors,
      validateFields fs errs = (validateFields fs []).map (fun r => errs ++ r) := by
  induction fs with
  | nil => intro errs; simp [validateFields]
  | cons p fs ih =>
    intro errs
    obtain ⟨fd, fv⟩ := p
    rw [validateFields, validateFields, validateField_append fd fv errs]
    cases h : validateField fd fv [] with
    | none => rfl
    | some e1 =>
      simp only [Option.map_some']
      rw [ih (errs ++ e1), ih e1]
      cases deepl : validateFields fs [] with
      | none => rfl
      | some l => simp [List.append_assoc]

/-- `validateStruct` only appends to the incoming aggregate. -/
lemma validateStruct_append : ∀ (v : Value) (errs : ValidationErrors),
    validateStruct v errs = (validateStruct v []).map (fun r => errs ++ r)
  | .ptr (some w), errs => by
    rw [validateStruct]
    rw [show validateStruct (.ptr (some w)) [] = validateStruct w [] from rfl]
    exact validateStruct_append w errs
  | .ptr none, errs => by simp [validateStruct]
  | .strct fs, errs => by
    rw [validateStruct]
    rw [show validateStruct (.strct fs) [] = validateFields fs [] from rfl]
    exact validateFields_append fs errs
  | .str s, errs => by simp [validateStruct]
  | .int i, errs => by simp [validateStruct]
  | .seq k es, errs => by simp [validateStruct]
  | .other, errs => by simp [validateStruct]

mutual

/-- The traversal only appends to the incoming aggregate. -/
lemma deepValidate_append : ∀ (v : Value) (errs : ValidationErrors),
    deepValidate v errs = (deepValidate v []).map (fun r => errs ++ r)
  | .ptr none, errs => by simp [deepValidate]
  | .ptr (some w), errs => by
    rw [show deepValidate (.ptr (some w)) errs = deepValidate w errs from by
      rw [deepValidate]]
    rw [show deepValidate (.ptr (some w)) [] = deepValidate w [] from by
      rw [deepValidate]]
    exact deepValidate_append w errs
  | .strct fs, errs => by
    rw [show deepValidate (.strct fs) errs = validateStruct (.strct fs) errs from by
      rw [deepValidate]]
    rw [show deepValidate (.strct fs) [] = validateStruct (.strct fs) [] from by
      rw [deepValidate]]
    exact validateStruct_append (.strct fs) errs
  | .seq k es, errs => by
    by_cases h : k = Kind.strct ∨ k = Kind.ptr ∨ k = Kind.seq
    · rw [show deepValidate (.seq k es) errs = deepValidateList es errs from by
        rw [deepValidate, if_pos h]]
      rw [show deepValidate (.seq k es) [] = deepValidateList es [] from by
        rw [deepValidate, if_pos h]]
      exact deepValidateList_append es errs
    · simp [deepValidate, if_neg h]
  | .str s, errs => by simp [deepValidate]
  | .int i, errs => by simp [deepValidate]
  | .other, errs => by simp [deepValidate]

/-- The element loop only appends, element by element in index order. -/
lemma deepValidateList_append : ∀ (vs : List Value) (errs : ValidationErrors),
    deepValidateList vs errs = (deepValidateList vs []).map (fun r => errs ++ r)
  | [], errs => by simp [deepValidateList]
  | v :: vs, errs => by
    rw [deepValidateList, deepValidateList, deepValidate_append v errs]
    cases h : deepValidate v [] with
    | none => rfl
    | some e1 =>
      simp only [Option.map_some']
      rw [deepValidateList_append vs (errs ++ e1), deepValidateList_append vs e1]
      cases deepValidateList vs [] with
      | none => rfl
      | some l => simp [List.append_assoc]

end

/-- C9: `Validate` returns nil exactly when the traversal's aggregate is
empty and the whole populated aggregate otherwise; the traversal never
discards or reorders errors — each field (in declaration order) and each
element (in index order) contributes by appending to the aggregate produced
so far, and a failing field never stops the walk (only the parser panic
does). -/
theorem validate_aggregate_order :
    (∀ (v : Value) (res : ValidationErrors), deepValidate v [] = some res →
      Validate v = some (if res.length > 0 then some res else none)) ∧
    (∀ (v : Value) (errs : ValidationErrors),
      deepValidate v errs = (deepValidate v []).map (fun r => errs ++ r)) ∧
    (∀ (fs : List (StructField × Value)) (errs : ValidationErrors),
      validateFields fs errs = (validateFields fs []).map (fun r => errs ++ r)) ∧
    (∀ (fd : StructField) (fv : Value) (fs : List (StructField × Value))
        (errs : ValidationErrors),
      validateFields ((fd, fv) :: fs) errs =
        (validateField fd fv errs).bind (fun errs2 => validateFields fs errs2)) ∧
    (∀ (v : Value) (vs : List Value) (errs : ValidationErrors),
      deepValidateList (v :: vs) errs =
        (deepValidate v errs).bind (fun errs2 => deepValidateList vs errs2)) := by
  refine ⟨?_, deepValidate_append, validateFields_append, ?_, ?_⟩
  · intro v res h
    unfold Validate
    rw [h]
  · intro fd fv fs errs
    rw [validateFields]
    cases validateField fd fv errs <;> rfl
  · intro v vs errs
    rw [deepValidateList]
    cases deepValidate v errs <;> rfl

/-- Witness for C9 at a scalar root: the traversal yields a singleton
aggregate and `Validate` surfaces it unchanged. -/
theorem validate_aggregate_order_witness :
    deepValidate (.str "a") [] = some [⟨Err.notStruct⟩] ∧
    Validate (.str "a") = some (some [⟨Err.notStruct⟩]) := by
  refine ⟨rfl, ?_⟩
  have h := validate_aggregate_order.1 (.str "a") [⟨Err.notStruct⟩] rfl
  simpa using h
